import Mathlib

set_option maxRecDepth 20000

/-!
Verification of the disbursement-curve pipeline (`curvas.py`).

The development shallowly embeds the script's data pipeline:
record loading and enrichment, the pandas `groupby`/`agg`/`cumsum`
cohort aggregation, the validity filter on `d` and `k`, and the
segmentation driver that fits one curve per category group plus a
general curve.  Monetary amounts are rationals; the pandas float
special values arising from division (`inf`, `-inf`, `NaN`) are
modelled explicitly.  The nonlinear least-squares solver is an
abstract oracle (a parameter of the driver), since its numerics are
outside the pipeline being verified.
-/

namespace Curvas

/-- A pandas float value as it appears in the `d` column: a finite
rational, `inf`, `-inf`, or `NaN`. -/
inductive PandasVal where
  | fin (q : ℚ)
  | posInf
  | negInf
  | nan
deriving DecidableEq

/-- Division of float columns as pandas performs it:
`x / NaN = NaN`; for a zero divisor the result is `inf`, `-inf` or
`NaN` according to the sign of the numerator; otherwise exact
division. -/
def pdiv (num : ℚ) (den : Option ℚ) : PandasVal :=
  match den with
  | none => .nan
  | some a =>
    if a = 0 then
      if 0 < num then .posInf else if num < 0 then .negInf else .nan
    else .fin (num / a)

/-- The comparison `d <= 1.0` on a pandas float value: `NaN` compares
false, `-inf <= 1.0` is true, `inf <= 1.0` is false. -/
def pleOne : PandasVal → Bool
  | .fin q => decide (q ≤ 1)
  | .posInf => false
  | .negInf => true
  | .nan => false

/-- The comparison `k >= 0` on the (possibly `NaN`) month column. -/
def kGE0 : Option Int → Bool
  | none => false
  | some k => decide (0 ≤ k)

/-- A calendar date, abstracted to its year and its absolute day
number (used only for subtraction of dates). -/
structure SDate where
  year : Int
  days : Int
deriving DecidableEq

/-- A raw row of the input table, after `pd.to_datetime(_, coerce)`:
an unparseable date is `none` (pandas `NaT`). -/
structure RawRecord where
  opid : Nat
  fecha_desembolso : Option SDate
  fecha_aprobacion : Option SDate
  monto_desembolsado : ℚ
  monto_aprobacion : Option ℚ
  sector_name : String
  tipo_prestamo : String
  pais : String
deriving DecidableEq

/-- An enriched row: `year` extracted from the disbursement date and
`months_since_approval = (disb - approval).days // 30`, `none` when
the approval date was `NaT`. -/
structure Row where
  opid : Nat
  year : Int
  monto_desembolsado : ℚ
  monto_aprobacion : Option ℚ
  months_since_approval : Option Int
  sector_name : String
  tipo_prestamo : String
  pais : String
deriving DecidableEq

/-- The ways the script run can die or propagate a failure. -/
inductive Err where
  | yearCastNaN
  | generalFit
  | groupFit
  | nameErrorGeneralSorted
deriving DecidableEq

/-- Enrichment of one record (the two derived columns of
`load_data`); `none` when the disbursement date is `NaT`. -/
def enrich (r : RawRecord) : Option Row :=
  r.fecha_desembolso.map fun dd =>
    { opid := r.opid
      year := dd.year
      monto_desembolsado := r.monto_desembolsado
      monto_aprobacion := r.monto_aprobacion
      months_since_approval :=
        r.fecha_aprobacion.map fun ad => Int.fdiv (dd.days - ad.days) 30
      sector_name := r.sector_name
      tipo_prestamo := r.tipo_prestamo
      pais := r.pais }

/-- `load_data`: coerces dates, then `data.year =
data.fecha_desembolso.dt.year.astype(int)`.  With any `NaT`
disbursement date the `astype(int)` call raises
(`cannot convert non-finite values to integer`), failing the whole
load; otherwise every row is enriched. -/
def load_data (raw : List RawRecord) : Except Err (List Row) :=
  if raw.all fun r => r.fecha_desembolso.isSome then
    .ok (raw.filterMap enrich)
  else .error .yearCastNaN

/-- Order on `groupby([IDOperacion, year])` keys: lexicographic by
operation id then year (pandas sorts group keys, `sort=True`). -/
def keyLe (a b : Nat × Int) : Prop :=
  a.1 < b.1 ∨ (a.1 = b.1 ∧ a.2 ≤ b.2)

/-- Strict version of `keyLe`. -/
def keyLt (a b : Nat × Int) : Prop :=
  a.1 < b.1 ∨ (a.1 = b.1 ∧ a.2 < b.2)

instance : DecidableRel keyLe := fun a b =>
  inferInstanceAs (Decidable (_ ∨ _))

instance : DecidableRel keyLt := fun a b =>
  inferInstanceAs (Decidable (_ ∨ _))

instance : IsTotal (Nat × Int) keyLe :=
  ⟨by intro a b; unfold keyLe; omega⟩

instance : IsTrans (Nat × Int) keyLe :=
  ⟨by intro a b c; unfold keyLe; omega⟩

/-- The distinct `(IDOperacion, year)` keys of the input, in the
sorted order in which pandas `groupby` emits them. -/
def groupKeys (rows : List Row) : List (Nat × Int) :=
  List.insertionSort keyLe ((rows.map fun r => (r.opid, r.year)).dedup)

/-- One row of the aggregated frame (after `.agg` and the renames). -/
structure SummaryRow where
  opid : Nat
  year : Int
  cumulative_disbursement_year : ℚ
  approval_amount : Option ℚ
  k : Option Int
deriving DecidableEq

/-- Maximum of a list of integers, `none` on the empty list (pandas
`max` skips `NaN`; an all-`NaN` group yields `NaN`). -/
def listMax? : List Int → Option Int
  | [] => none
  | x :: xs =>
    match listMax? xs with
    | none => some x
    | some m => some (max x m)

/-- The `.agg` dictionary applied to one group: sum of
`monto_desembolsado`, first non-null `monto_aprobacion`, max of
`months_since_approval`. -/
def aggRow (rows : List Row) (key : Nat × Int) : SummaryRow :=
  let grp := rows.filter fun r => decide (r.opid = key.1 ∧ r.year = key.2)
  { opid := key.1
    year := key.2
    cumulative_disbursement_year := (grp.map fun r => r.monto_desembolsado).sum
    approval_amount := (grp.filterMap fun r => r.monto_aprobacion).head?
    k := listMax? (grp.filterMap fun r => r.months_since_approval) }

/-- `general_summary`: the grouped-and-aggregated frame, rows in the
sorted group-key order pandas produces. -/
def general_summary (rows : List Row) : List SummaryRow :=
  (groupKeys rows).map (aggRow rows)

/-- `groupby(IDOperacion).cumsum()` on the
`cumulative_disbursement_year` column: a running per-operation total
carried through the frame in row order. -/
def cumsumGo (acc : Nat → ℚ) : List SummaryRow → List ℚ
  | [] => []
  | s :: rest =>
    let t := acc s.opid + s.cumulative_disbursement_year
    t :: cumsumGo (fun o => if o = s.opid then t else acc o) rest

/-- The aggregated frame together with its
`cumulative_disbursement_total` column. -/
def withCum (rows : List Row) : List (SummaryRow × ℚ) :=
  (general_summary rows).zip (cumsumGo (fun _ => 0) (general_summary rows))

/-- A row of the cohort table: the aggregated fields, the cumulative
total, and the `d` column. -/
structure CumRow where
  base : SummaryRow
  cumulative_disbursement_total : ℚ
  d : PandasVal
deriving DecidableEq

/-- Adds the `d = cumulative_disbursement_total / approval_amount`
column. -/
def withD (rows : List Row) : List CumRow :=
  (withCum rows).map fun p =>
    ⟨p.1, p.2, pdiv p.2 p.1.approval_amount⟩

/-- The validity filter `(d <= 1.0) & (k >= 0)` applied to the
general cohort table. -/
def general_summary_filtered (rows : List Row) : List CumRow :=
  (withD rows).filter fun c => pleOne c.d && kGE0 c.base.k

/-! The per-group branch duplicates the aggregation pipeline verbatim
(`datamodelo_sumary`, lines 134-154 of the script).  It is embedded a
second time, mirroring the duplication in the source, so that the
equivalence of the two branches is a theorem about two definitions. -/

/-- Group keys as computed inside the per-category branch. -/
def dmGroupKeys (rows : List Row) : List (Nat × Int) :=
  List.insertionSort keyLe ((rows.map fun r => (r.opid, r.year)).dedup)

/-- The `.agg` dictionary of the per-category branch. -/
def dmAggRow (rows : List Row) (key : Nat × Int) : SummaryRow :=
  let grp := rows.filter fun r => decide (r.opid = key.1 ∧ r.year = key.2)
  { opid := key.1
    year := key.2
    cumulative_disbursement_year := (grp.map fun r => r.monto_desembolsado).sum
    approval_amount := (grp.filterMap fun r => r.monto_aprobacion).head?
    k := listMax? (grp.filterMap fun r => r.months_since_approval) }

/-- `datamodelo_sumary`: the per-category aggregated frame. -/
def datamodelo_sumary (rows : List Row) : List SummaryRow :=
  (dmGroupKeys rows).map (dmAggRow rows)

/-- The per-category frame with its cumulative-total column. -/
def dmWithCum (rows : List Row) : List (SummaryRow × ℚ) :=
  (datamodelo_sumary rows).zip (cumsumGo (fun _ => 0) (datamodelo_sumary rows))

/-- The per-category frame with its `d` column. -/
def dmWithD (rows : List Row) : List CumRow :=
  (dmWithCum rows).map fun p =>
    ⟨p.1, p.2, pdiv p.2 p.1.approval_amount⟩

/-- The per-category cohort table after the validity filter. -/
def datamodelo_filtered (rows : List Row) : List CumRow :=
  (dmWithD rows).filter fun c => pleOne c.d && kGE0 c.base.k

/-! The segmentation driver: the category selector, pandas
`groupby(column)` over the category column, the ≥3-points gate, the
per-group fit, and the final figure with the general curve added
last. -/

/-- The sidebar category selector. -/
inductive Category where
  | general
  | sectores
  | tiposPrestamo
  | paises
deriving DecidableEq

/-- A grouping column. -/
inductive GroupCol where
  | sector
  | tipo
  | pais
deriving DecidableEq

/-- `group_column`: the column selected by each category. -/
def group_column : Category → Option GroupCol
  | .general => none
  | .sectores => some .sector
  | .tiposPrestamo => some .tipo
  | .paises => some .pais

/-- Reads the grouping column of a row. -/
def colVal : GroupCol → Row → String
  | .sector, r => r.sector_name
  | .tipo, r => r.tipo_prestamo
  | .pais, r => r.pais

/-- The fixed sector-abbreviation table. -/
def sector_abbreviations : List (String × String) :=
  [("Infraestructura y Medio Ambiente", "infra"),
   ("Sector Social", "social"),
   ("Gobernanza e Instituciones", "gob"),
   ("Mercado y Competitividad", "merc"),
   ("Integración Regional", "int")]

/-- `sector_abbreviations.get(name, name)`. -/
def abbrevLookup (s : String) : String :=
  match sector_abbreviations.find? fun p => p.1 == s with
  | some p => p.2
  | none => s

/-- The display name of a group: sector names go through the
abbreviation table and are lower-cased. -/
def groupDisplayName (col : GroupCol) (v : String) : String :=
  match col with
  | .sector => (abbrevLookup v).toLower
  | _ => v

/-- The distinct values of the grouping column, in the sorted order
in which pandas `groupby` iterates them. -/
def groupValues (col : GroupCol) (rows : List Row) : List String :=
  List.insertionSort (· ≤ ·) ((rows.map (colVal col)).dedup)

/-- The subset of rows in one category partition (`group_df`). -/
def partitionRows (data : List Row) (col : GroupCol) (v : String) : List Row :=
  data.filter fun r => decide (colVal col r = v)

/-- The curve-fitting oracle and model evaluator.  `fit` abstracts
`scipy.optimize.curve_fit(logistic_model, k, d, p0, maxfev=2000)`:
it receives the `k` and `d` columns and either returns parameters or
fails (non-convergence within the budget, singular Jacobian).
`predict` abstracts `logistic_model(k, b0, b1, b2)`. -/
structure FitEnv where
  fit : List (Option Int) → List PandasVal → Except Unit (ℚ × ℚ × ℚ)
  predict : Option Int → ℚ × ℚ × ℚ → ℚ

/-- Order on cohort rows by the `k` column (`sort_values(by=k)`,
`NaN` last). -/
def optKLe (a b : Option Int) : Prop :=
  match a, b with
  | some x, some y => x ≤ y
  | some _, none => True
  | none, some _ => False
  | none, none => True

instance : DecidableRel optKLe := fun a b => by
  unfold optKLe
  cases a <;> cases b <;> infer_instance

/-- Rows of the cohort table paired with their `hd_k` value, ordered
by `k` for plotting. -/
def sortByK (l : List (CumRow × ℚ)) : List (CumRow × ℚ) :=
  List.insertionSort (fun a b => optKLe a.1.base.k b.1.base.k) l

/-- The `hd_k` column: the fitted model evaluated on the `k` column
of the (filtered) cohort table. -/
def hdRows (env : FitEnv) (params : ℚ × ℚ × ℚ) (l : List CumRow) :
    List (CumRow × ℚ) :=
  l.map fun c => (c, env.predict c.base.k params)

/-- One plotted curve: its legend name and its `(k, hd_k)` series. -/
structure Trace where
  name : String
  series : List (Option Int × ℚ)
deriving DecidableEq

/-- The general curve: its cohort points, fitted parameters, and
sorted `(k, hd_k)` series. -/
structure GeneralOut where
  points : List CumRow
  params : ℚ × ℚ × ℚ
  series : List (Option Int × ℚ)
deriving DecidableEq

/-- The figure handed to the rendering layer. -/
structure Figure where
  groupTraces : List Trace
  general : GeneralOut
deriving DecidableEq

/-- The general-fit stage: if the filtered cohort table is empty, no
fit happens and `general_summary_sorted` is left undefined (`none`);
otherwise the fit runs (propagating failure) and the sorted frame
with its `hd_k` column is produced. -/
def runGeneral (env : FitEnv) (data : List Row) :
    Except Err (Option GeneralOut) :=
  let gs := general_summary_filtered data
  if gs.isEmpty then .ok none
  else
    match env.fit (gs.map fun c => c.base.k) (gs.map fun c => c.d) with
    | .error _ => .error .generalFit
    | .ok params =>
      let sorted := sortByK (hdRows env params gs)
      .ok (some ⟨gs, params, sorted.map fun p => (p.1.base.k, p.2)⟩)

/-- One iteration of the per-group loop: aggregate the partition with
the duplicated pipeline, gate on ≥3 valid points, fit (an unhandled
fit failure propagates), and emit the named trace. -/
def processGroup (env : FitEnv) (col : GroupCol) (data : List Row)
    (v : String) : Except Err (List Trace) :=
  let dm := datamodelo_filtered (partitionRows data col v)
  if 3 ≤ dm.length then
    match env.fit (dm.map fun c => c.base.k) (dm.map fun c => c.d) with
    | .error _ => .error .groupFit
    | .ok params =>
      let sorted := sortByK (hdRows env params dm)
      .ok [⟨(groupDisplayName col v).toLower,
            sorted.map fun p => (p.1.base.k, p.2)⟩]
  else .ok []

/-- The per-group loop over the partitions, in pandas group order;
the first propagated fit failure aborts the loop. -/
def processGroups (env : FitEnv) (col : GroupCol) (data : List Row) :
    List String → Except Err (List Trace)
  | [] => .ok []
  | v :: vs =>
    match processGroup env col data v with
    | .error e => .error e
    | .ok t =>
      match processGroups env col data vs with
      | .error e => .error e
      | .ok rest => .ok (t ++ rest)

/-- The whole script run for one interaction: load, general stage,
optional per-group stage, then the final `add_trace` of the general
curve — which dereferences `general_summary_sorted` and so raises
`NameError` when the general stage left it undefined. -/
def script (env : FitEnv) (raw : List RawRecord) (cat : Category) :
    Except Err Figure :=
  match load_data raw with
  | .error e => .error e
  | .ok data =>
    match runGeneral env data with
    | .error e => .error e
    | .ok gOpt =>
      match
        (match group_column cat with
         | none => Except.ok []
         | some col => processGroups env col data (groupValues col data)) with
      | .error e => .error e
      | .ok traces =>
        match gOpt with
        | some g => .ok ⟨traces, g⟩
        | none => .error .nameErrorGeneralSorted

/-! Specification-side descriptions of the aggregation, written
directly from the spec's wording: per-(operation, year) sums, first
seen approval, max elapsed months, and the prefix sum over the
operation's years up to the given year. -/

/-- The input rows belonging to one `(operation_id, year)` cohort. -/
def rowsOf (rows : List Row) (o : Nat) (y : Int) : List Row :=
  rows.filter fun r => decide (r.opid = o ∧ r.year = y)

/-- Spec: the sum of `disbursed_amount` within one cohort. -/
def yearSum (rows : List Row) (o : Nat) (y : Int) : ℚ :=
  ((rowsOf rows o y).map fun r => r.monto_desembolsado).sum

/-- Spec: the first seen (non-null) `approved_amount` of a cohort. -/
def firstApproval (rows : List Row) (o : Nat) (y : Int) : Option ℚ :=
  ((rowsOf rows o y).filterMap fun r => r.monto_aprobacion).head?

/-- Spec: the maximum `elapsed_months` within a cohort. -/
def maxElapsed (rows : List Row) (o : Nat) (y : Int) : Option Int :=
  listMax? ((rowsOf rows o y).filterMap fun r => r.months_since_approval)

/-- The distinct years in which operation `o` has rows. -/
def opYears (rows : List Row) (o : Nat) : List Int :=
  ((rows.filter fun r => decide (r.opid = o)).map fun r => r.year).dedup

/-- Spec: the cumulative disbursement of operation `o` up to and
including year `y` — the prefix sum of the yearly sums over the
operation's years taken in ascending order. -/
def cumSpec (rows : List Row) (o : Nat) (y : Int) : ℚ :=
  (((opYears rows o).filter fun z => decide (z ≤ y)).map fun z =>
    yearSum rows o z).sum

/-- Spec: whether a `d` value is a finite number in `[0, 1]`. -/
def dInUnit : PandasVal → Bool
  | .fin q => decide (0 ≤ q) && decide (q ≤ 1)
  | _ => false

/-! Helper lemmas about the embedded pipeline. -/

lemma cumsumGo_length (l : List SummaryRow) :
    ∀ acc, (cumsumGo acc l).length = l.length := by
  induction l with
  | nil => intro acc; rfl
  | cons s rest ih => intro acc; simp [cumsumGo, ih]

/-- Closed form of the per-operation running total: the entry at
position `i` is the accumulator plus the sum of the
`cumulative_disbursement_year` values of the rows up to and including
`i` that share row `i`'s operation id. -/
lemma cumsumGo_getElem (l : List SummaryRow) :
    ∀ (acc : Nat → ℚ) (i : Nat) (h : i < l.length)
      (h2 : i < (cumsumGo acc l).length),
      (cumsumGo acc l)[i] =
        acc l[i].opid +
          (((l.take (i+1)).filter fun t =>
            decide (t.opid = l[i].opid)).map fun t =>
              t.cumulative_disbursement_year).sum := by
  induction l with
  | nil => intro acc i h h2; simp at h
  | cons s rest ih =>
    intro acc i h h2
    cases i with
    | zero =>
      simp [cumsumGo, List.filter]
    | succ i =>
      have h' : i < rest.length := by simpa using h
      have h2' : i < (cumsumGo
          (fun o => if o = s.opid
            then acc s.opid + s.cumulative_disbursement_year
            else acc o) rest).length := by
        rw [cumsumGo_length]; exact h'
      have hL : (cumsumGo acc (s :: rest))[i+1] =
          (cumsumGo (fun o => if o = s.opid
            then acc s.opid + s.cumulative_disbursement_year
            else acc o) rest)[i] :=
        List.getElem_cons_succ _ _ i h2
      have hR : (s :: rest)[i+1] = rest[i] :=
        List.getElem_cons_succ _ _ i h
      rw [hL, ih _ i h' h2']
      simp only [hR]
      have htake : (s :: rest).take (i+1+1) = s :: rest.take (i+1) :=
        List.take_succ_cons
      rw [htake]
      by_cases hop : rest[i].opid = s.opid
      · rw [if_pos hop, List.filter_cons_of_pos (by simp [hop]),
          List.map_cons, List.sum_cons, hop]
        ring
      · rw [if_neg hop, List.filter_cons_of_neg
          (by simp; exact fun hc => hop hc.symm)]

lemma length_general_summary (rows : List Row) :
    (general_summary rows).length = (groupKeys rows).length := by
  simp [general_summary]

lemma general_summary_getElem (rows : List Row) (i : Nat)
    (h : i < (groupKeys rows).length)
    (h2 : i < (general_summary rows).length) :
    (general_summary rows)[i] = aggRow rows (groupKeys rows)[i] := by
  simp [general_summary]

lemma groupKeys_sorted (rows : List Row) :
    List.Sorted keyLe (groupKeys rows) :=
  List.sorted_insertionSort keyLe _

lemma groupKeys_nodup (rows : List Row) : (groupKeys rows).Nodup :=
  (List.perm_insertionSort keyLe _).nodup_iff.mpr (List.nodup_dedup _)

lemma mem_groupKeys (rows : List Row) (q : Nat × Int) :
    q ∈ groupKeys rows ↔ ∃ r ∈ rows, r.opid = q.1 ∧ r.year = q.2 := by
  unfold groupKeys
  rw [(List.perm_insertionSort keyLe _).mem_iff, List.mem_dedup,
    List.mem_map]
  constructor
  · rintro ⟨r, hr, hq⟩
    exact ⟨r, hr, by rw [← hq], by rw [← hq]⟩
  · rintro ⟨r, hr, h1, h2⟩
    exact ⟨r, hr, by cases q; simp_all⟩

/-- Sorted group keys are strictly increasing (they are nodup). -/
lemma groupKeys_pairwise_lt (rows : List Row) :
    List.Pairwise keyLt (groupKeys rows) := by
  have hs := List.pairwise_iff_getElem.mp (groupKeys_sorted rows)
  have hn := groupKeys_nodup rows
  rw [List.pairwise_iff_getElem]
  intro i j hi hj hij
  have hle := hs i j hi hj hij
  have hne : (groupKeys rows)[i] ≠ (groupKeys rows)[j] := by
    intro hc
    exact absurd ((List.Nodup.getElem_inj_iff hn).mp hc) (Nat.ne_of_lt hij)
  have hcomp : (groupKeys rows)[i].1 ≠ (groupKeys rows)[j].1 ∨
      (groupKeys rows)[i].2 ≠ (groupKeys rows)[j].2 := by
    by_contra hc
    push_neg at hc
    exact hne (Prod.ext hc.1 hc.2)
  unfold keyLe at hle
  unfold keyLt
  omega

/-- In the sorted key list, the keys among the first `i+1` entries
that share the operation id of entry `i` are exactly the keys of that
operation with year at most entry `i`'s year. -/
lemma take_filter_perm (rows : List Row) (i : Nat)
    (hi : i < (groupKeys rows).length) :
    List.Perm
      (((groupKeys rows).take (i+1)).filter fun q =>
        decide (q.1 = (groupKeys rows)[i].1))
      ((groupKeys rows).filter fun q =>
        decide (q.1 = (groupKeys rows)[i].1 ∧
          q.2 ≤ (groupKeys rows)[i].2)) := by
  refine (List.perm_ext_iff_of_nodup ?_ ?_).mpr ?_
  · exact (groupKeys_nodup rows).sublist
      ((List.filter_sublist _).trans (List.take_sublist _ _))
  · exact (groupKeys_nodup rows).sublist (List.filter_sublist _)
  intro q
  simp only [List.mem_filter, decide_eq_true_eq]
  constructor
  · rintro ⟨hqt, hq1⟩
    refine ⟨(List.take_sublist _ _).subset hqt, hq1, ?_⟩
    obtain ⟨j, hj, hq⟩ := List.mem_iff_getElem.mp hqt
    have hjk : j < (groupKeys rows).length := by
      simp [List.length_take] at hj; omega
    have hji : j ≤ i := by
      simp [List.length_take] at hj; omega
    have hgt : ((groupKeys rows).take (i+1))[j] = (groupKeys rows)[j] :=
      (List.getElem_take' _ hjk (by omega)).symm
    rw [hgt] at hq
    rcases Nat.lt_or_eq_of_le hji with hlt | heq
    · have hp := (List.pairwise_iff_getElem.mp
        (groupKeys_pairwise_lt rows)) j i hjk hi hlt
      unfold keyLt at hp
      rw [hq] at hp
      omega
    · subst heq
      exact le_of_eq (congrArg Prod.snd hq.symm)
  · rintro ⟨hqk, hq1, hq2⟩
    refine ⟨?_, hq1⟩
    obtain ⟨j, hj, hq⟩ := List.mem_iff_getElem.mp hqk
    have hji : j ≤ i := by
      by_contra hc
      push_neg at hc
      have hp := (List.pairwise_iff_getElem.mp
        (groupKeys_pairwise_lt rows)) i j hi hj hc
      unfold keyLt at hp
      rw [hq] at hp
      omega
    apply List.mem_iff_getElem.mpr
    refine ⟨j, by simp [List.length_take]; omega, ?_⟩
    rw [(List.getElem_take' _ hj (by omega)).symm]
    exact hq

/-- The sum of the yearly sums over the operation's keys with year at
most `y` is `cumSpec`. -/
lemma filter_keys_map_sum (rows : List Row) (o : Nat) (y : Int) :
    (((groupKeys rows).filter fun q => decide (q.1 = o ∧ q.2 ≤ y)).map
      fun q => yearSum rows q.1 q.2).sum = cumSpec rows o y := by
  have hinj : Function.Injective (fun z : Int => (o, z)) := by
    intro a b hab
    simpa using hab
  have hperm : List.Perm
      ((groupKeys rows).filter fun q => decide (q.1 = o ∧ q.2 ≤ y))
      (((opYears rows o).filter fun z => decide (z ≤ y)).map
        fun z => (o, z)) := by
    refine (List.perm_ext_iff_of_nodup ?_ ?_).mpr ?_
    · exact (groupKeys_nodup rows).sublist (List.filter_sublist _)
    · exact (((List.nodup_dedup _).filter _).map hinj)
    intro q
    simp only [List.mem_filter, List.mem_map, decide_eq_true_eq,
      mem_groupKeys]
    constructor
    · rintro ⟨⟨r, hr, hr1, hr2⟩, hq1, hq2⟩
      refine ⟨q.2, ⟨?_, hq2⟩, ?_⟩
      · unfold opYears
        rw [List.mem_dedup, List.mem_map]
        exact ⟨r, List.mem_filter.mpr ⟨hr, by simp [hr1, hq1]⟩, hr2⟩
      · cases q
        simp_all
    · rintro ⟨z, ⟨hz, hzy⟩, hq⟩
      unfold opYears at hz
      rw [List.mem_dedup, List.mem_map] at hz
      obtain ⟨r, hrf, hry⟩ := hz
      rw [List.mem_filter] at hrf
      have hro : r.opid = o := by simpa using hrf.2
      refine ⟨⟨r, hrf.1, ?_, ?_⟩, ?_, ?_⟩ <;>
        simp_all [← hq]
  rw [List.Perm.sum_eq (hperm.map _), List.map_map]
  rfl

/-- The cumulative-total column entry at position `i` equals the
spec's prefix sum for that row's operation and year. -/
lemma withCum_cum_eq (rows : List Row) (i : Nat)
    (h : i < (general_summary rows).length)
    (h2 : i < (cumsumGo (fun _ => 0) (general_summary rows)).length) :
    (cumsumGo (fun _ => 0) (general_summary rows))[i] =
      cumSpec rows (general_summary rows)[i].opid
        (general_summary rows)[i].year := by
  have hkl : i < (groupKeys rows).length := by
    rw [← length_general_summary]; exact h
  rw [cumsumGo_getElem _ _ i h h2]
  have hsi : (general_summary rows)[i] = aggRow rows (groupKeys rows)[i] :=
    general_summary_getElem rows i hkl h
  have ho : (general_summary rows)[i].opid = (groupKeys rows)[i].1 := by
    rw [hsi]; rfl
  have hy : (general_summary rows)[i].year = (groupKeys rows)[i].2 := by
    rw [hsi]; rfl
  have htk : (general_summary rows).take (i+1) =
      ((groupKeys rows).take (i+1)).map (aggRow rows) := by
    unfold general_summary
    exact (List.map_take _ _ _).symm
  rw [ho, hy, htk, List.filter_map, List.map_map]
  have hpred : ((fun t : SummaryRow =>
        decide (t.opid = (groupKeys rows)[i].1)) ∘ (aggRow rows)) =
      (fun q : Nat × Int => decide (q.1 = (groupKeys rows)[i].1)) := by
    funext q; rfl
  have hmapf : ((fun t : SummaryRow =>
        t.cumulative_disbursement_year) ∘ (aggRow rows)) =
      (fun q : Nat × Int => yearSum rows q.1 q.2) := by
    funext q; rfl
  rw [hpred, hmapf,
    List.Perm.sum_eq ((take_filter_perm rows i hkl).map _),
    filter_keys_map_sum]
  ring

/-- Every element of the cohort frame is a (summary row, cumulative
total) pair read off at one index. -/
lemma mem_withCum (rows : List Row) (p : SummaryRow × ℚ)
    (hp : p ∈ withCum rows) :
    ∃ (i : Nat) (h : i < (general_summary rows).length)
      (h2 : i < (cumsumGo (fun _ => 0) (general_summary rows)).length),
      p.1 = (general_summary rows)[i] ∧
      p.2 = (cumsumGo (fun _ => 0) (general_summary rows))[i] := by
  unfold withCum at hp
  obtain ⟨i, hi, hget⟩ := List.mem_iff_getElem.mp hp
  have h : i < (general_summary rows).length := by
    simp [List.length_zip, cumsumGo_length] at hi
    exact hi
  have h2 : i < (cumsumGo (fun _ => 0) (general_summary rows)).length := by
    rw [cumsumGo_length]; exact h
  refine ⟨i, h, h2, ?_, ?_⟩
  · rw [← hget, List.getElem_zip]
  · rw [← hget, List.getElem_zip]

/-- The fields of every row of the cohort frame agree with the
spec-side aggregation for its `(operation_id, year)` key, and the
cumulative total is the spec's year-ordered prefix sum. -/
lemma withCum_fields (rows : List Row) (p : SummaryRow × ℚ)
    (hp : p ∈ withCum rows) :
    p.1.cumulative_disbursement_year = yearSum rows p.1.opid p.1.year ∧
    p.1.approval_amount = firstApproval rows p.1.opid p.1.year ∧
    p.1.k = maxElapsed rows p.1.opid p.1.year ∧
    p.2 = cumSpec rows p.1.opid p.1.year := by
  obtain ⟨i, h, h2, h1eq, h2eq⟩ := mem_withCum rows p hp
  have hkl : i < (groupKeys rows).length := by
    rw [← length_general_summary]; exact h
  have hsi : (general_summary rows)[i] = aggRow rows (groupKeys rows)[i] :=
    general_summary_getElem rows i hkl h
  rw [h1eq, h2eq, withCum_cum_eq rows i h h2, hsi]
  exact ⟨rfl, rfl, rfl, rfl⟩

/-- The `(operation_id, year)` keys present in the cohort frame are
exactly those present in the input rows. -/
lemma mem_withCum_keys (rows : List Row) (o : Nat) (y : Int) :
    (∃ r ∈ rows, r.opid = o ∧ r.year = y) ↔
    (∃ p ∈ withCum rows, p.1.opid = o ∧ p.1.year = y) := by
  rw [show (∃ r ∈ rows, r.opid = o ∧ r.year = y) ↔ (o, y) ∈ groupKeys rows
    from (mem_groupKeys rows (o, y)).symm]
  constructor
  · intro hk
    obtain ⟨i, hi, hki⟩ := List.mem_iff_getElem.mp hk
    have hsl : i < (general_summary rows).length := by
      rw [length_general_summary]; exact hi
    have hcl : i < (cumsumGo (fun _ => 0) (general_summary rows)).length := by
      rw [cumsumGo_length]; exact hsl
    have hzl : i < (withCum rows).length := by
      unfold withCum
      simp [List.length_zip, cumsumGo_length]
      exact hsl
    refine ⟨(withCum rows)[i], List.getElem_mem hzl, ?_⟩
    have hz : (withCum rows)[i] =
        ((general_summary rows)[i],
          (cumsumGo (fun _ => 0) (general_summary rows))[i]) :=
      List.getElem_zip
    rw [hz, general_summary_getElem rows i hi hsl, hki]
    exact ⟨rfl, rfl⟩
  · rintro ⟨p, hp, h1, h2⟩
    obtain ⟨i, h, hh2, h1eq, h2eq⟩ := mem_withCum rows p hp
    have hkl : i < (groupKeys rows).length := by
      rw [← length_general_summary]; exact h
    have hsi : (general_summary rows)[i] = aggRow rows (groupKeys rows)[i] :=
      general_summary_getElem rows i hkl h
    have hko : (groupKeys rows)[i].1 = o := by
      rw [← h1, h1eq, hsi]; rfl
    have hky : (groupKeys rows)[i].2 = y := by
      rw [← h2, h1eq, hsi]; rfl
    apply List.mem_iff_getElem.mpr
    exact ⟨i, hkl, Prod.ext hko hky⟩

/-- The keys of the cohort frame, in frame order. -/
lemma withCum_map_keys (rows : List Row) :
    (withCum rows).map (fun p => (p.1.opid, p.1.year)) = groupKeys rows := by
  have hlen : (general_summary rows).length ≤
      (cumsumGo (fun _ => 0) (general_summary rows)).length := by
    rw [cumsumGo_length]
  unfold withCum
  have hfst : (fun p : SummaryRow × ℚ => (p.1.opid, p.1.year)) =
      (fun s : SummaryRow => (s.opid, s.year)) ∘ Prod.fst := rfl
  rw [hfst, ← List.map_map, List.map_fst_zip _ _ hlen]
  unfold general_summary
  rw [List.map_map]
  have : ((fun s : SummaryRow => (s.opid, s.year)) ∘ aggRow rows) = id := by
    funext q; rfl
  rw [this, List.map_id]

lemma yearSum_nonneg (rows : List Row) (o : Nat) (y : Int)
    (hm : ∀ r ∈ rows, 0 ≤ r.monto_desembolsado) : 0 ≤ yearSum rows o y := by
  apply List.sum_nonneg
  intro x hx
  rw [List.mem_map] at hx
  obtain ⟨r, hr, hrx⟩ := hx
  rw [← hrx]
  exact hm r (List.mem_of_mem_filter hr)

lemma cumSpec_nonneg (rows : List Row) (o : Nat) (y : Int)
    (hm : ∀ r ∈ rows, 0 ≤ r.monto_desembolsado) : 0 ≤ cumSpec rows o y := by
  apply List.sum_nonneg
  intro x hx
  rw [List.mem_map] at hx
  obtain ⟨z, _, hzx⟩ := hx
  rw [← hzx]
  exact yearSum_nonneg rows o z hm

lemma cumSpec_mono (rows : List Row) (o : Nat) (y₁ y₂ : Int) (h : y₁ ≤ y₂)
    (hm : ∀ r ∈ rows, 0 ≤ r.monto_desembolsado) :
    cumSpec rows o y₁ ≤ cumSpec rows o y₂ := by
  unfold cumSpec
  apply List.Sublist.sum_le_sum
  · refine List.Sublist.map _ (List.monotone_filter_right _ ?_)
    intro z hz
    simp only [decide_eq_true_eq] at hz ⊢
    omega
  · intro x hx
    rw [List.mem_map] at hx
    obtain ⟨z, _, hzx⟩ := hx
    rw [← hzx]
    exact yearSum_nonneg rows o z hm

/-- Decomposition of membership in the filtered cohort table. -/
lemma mem_filtered (rows : List Row) (c : CumRow)
    (hc : c ∈ general_summary_filtered rows) :
    (∃ p ∈ withCum rows,
      c = ⟨p.1, p.2, pdiv p.2 p.1.approval_amount⟩) ∧
    pleOne c.d = true ∧ kGE0 c.base.k = true := by
  unfold general_summary_filtered at hc
  rw [List.mem_filter] at hc
  obtain ⟨hmem, hfil⟩ := hc
  rw [Bool.and_eq_true] at hfil
  unfold withD at hmem
  rw [List.mem_map] at hmem
  obtain ⟨p, hp, hpc⟩ := hmem
  exact ⟨⟨p, hp, hpc.symm⟩, hfil.1, hfil.2⟩

/-- A non-null aggregated approval amount is one of the input rows'
approval amounts. -/
lemma firstApproval_mem (rows : List Row) (o : Nat) (y : Int) (a : ℚ)
    (h : firstApproval rows o y = some a) :
    ∃ r ∈ rows, r.monto_aprobacion = some a := by
  unfold firstApproval at h
  have ha : a ∈ (rowsOf rows o y).filterMap fun r => r.monto_aprobacion :=
    List.mem_of_mem_head? (by simp [h])
  rw [List.mem_filterMap] at ha
  obtain ⟨r, hr, hra⟩ := ha
  exact ⟨r, List.mem_of_mem_filter hr, hra⟩

/-- **C1.**  For every input sequence of enriched records, the cohort
aggregation groups the rows by `(operation_id, year)`: every row of the
aggregated frame carries the per-group sum of disbursed amounts, the
first-seen (non-null) approved amount and the maximum elapsed months of
its group, the frame's keys are exactly the input's
`(operation_id, year)` pairs in strictly increasing (in particular
year-ascending per operation) order for every input regardless of row
order, and the `cumulative_disbursement_total` column is the prefix sum
of the yearly sums over that operation's years up to the row's year. -/
theorem c1_cohort_aggregation (rows : List Row) :
    (∀ p ∈ withCum rows,
      p.1.cumulative_disbursement_year = yearSum rows p.1.opid p.1.year ∧
      p.1.approval_amount = firstApproval rows p.1.opid p.1.year ∧
      p.1.k = maxElapsed rows p.1.opid p.1.year ∧
      p.2 = cumSpec rows p.1.opid p.1.year) ∧
    List.Pairwise keyLt ((withCum rows).map fun p => (p.1.opid, p.1.year)) ∧
    (∀ (o : Nat) (y : Int),
      (∃ r ∈ rows, r.opid = o ∧ r.year = y) ↔
      (∃ p ∈ withCum rows, p.1.opid = o ∧ p.1.year = y)) := by
  refine ⟨fun p hp => withCum_fields rows p hp, ?_,
    fun o y => mem_withCum_keys rows o y⟩
  rw [withCum_map_keys]
  exact groupKeys_pairwise_lt rows

/-- A two-row input: operation 1 disburses 50 in 2020 and 30 in 2021
against an approval of 100. -/
def rows0 : List Row :=
  [⟨1, 2020, 50, some 100, some 3, "Sector Social", "inv", "bolivia"⟩,
   ⟨1, 2021, 30, some 100, some 15, "Sector Social", "inv", "bolivia"⟩]

/-- The cohort row of `rows0` for `(1, 2021)`: yearly sum 30,
cumulative total 80. -/
def p0 : SummaryRow × ℚ := (⟨1, 2021, 30, some 100, some 15⟩, 80)

/-- Witness for C1 at a concrete input: the `(1, 2021)` cohort row is
in the frame and its cumulative total is the spec prefix sum. -/
theorem c1_witness :
    p0 ∈ withCum rows0 ∧ p0.2 = cumSpec rows0 1 2021 := by
  have hmem : p0 ∈ withCum rows0 := by with_unfolding_all decide
  exact ⟨hmem, ((c1_cohort_aggregation rows0).1 p0 hmem).2.2.2⟩

/-- A single row with a negative disbursed amount: its cohort point
survives the filter with `d = -1/2`. -/
def rNeg : Row := ⟨7, 2020, -50, some 100, some 3, "s", "t", "p"⟩

/-- **C2 fails as stated**: on the input `[rNeg]` the surviving
cohort point has `d = -1/2`, outside `[0, 1]` — the filter only
enforces `d ≤ 1` and `k ≥ 0`, not `0 ≤ d`. -/
theorem c2_counterexample :
    ¬ (∀ c ∈ general_summary_filtered [rNeg], dInUnit c.d = true) := by
  with_unfolding_all decide

/-- **C2 (amended).**  Every cohort point surviving the validity
filter satisfies `0 ≤ d ≤ 1` provided all disbursed amounts are
nonnegative and all non-null approval amounts are nonnegative; without
that proviso only `d ≤ 1` is enforced. -/
theorem c2_amended (rows : List Row)
    (hm : ∀ r ∈ rows, 0 ≤ r.monto_desembolsado)
    (ha : ∀ r ∈ rows, ∀ a : ℚ, r.monto_aprobacion = some a → 0 ≤ a) :
    ∀ c ∈ general_summary_filtered rows, dInUnit c.d = true := by
  intro c hc
  obtain ⟨⟨p, hp, hcp⟩, hple, _⟩ := mem_filtered rows c hc
  obtain ⟨_, happ, _, hcum⟩ := withCum_fields rows p hp
  have hcumnn : 0 ≤ p.2 := by
    rw [hcum]
    exact cumSpec_nonneg rows p.1.opid p.1.year hm
  subst hcp
  dsimp only at hple ⊢
  cases hap : p.1.approval_amount with
  | none =>
    rw [hap] at hple
    simp [pdiv, pleOne] at hple
  | some a =>
    have hann : 0 ≤ a := by
      obtain ⟨r, hr, hra⟩ :=
        firstApproval_mem rows p.1.opid p.1.year a (by rw [← happ]; exact hap)
      exact ha r hr a hra
    rw [hap] at hple
    by_cases haz : a = 0
    · rw [haz] at hple
      unfold pdiv at hple
      dsimp only at hple
      rw [if_pos rfl] at hple
      split_ifs at hple with h1 h2
      · simp [pleOne] at hple
      · exact absurd h2 (not_lt.mpr hcumnn)
      · simp [pleOne] at hple
    · have hapos : 0 < a := lt_of_le_of_ne hann (Ne.symm haz)
      unfold pdiv at hple ⊢
      dsimp only at hple ⊢
      rw [if_neg haz] at hple ⊢
      unfold pleOne at hple
      unfold dInUnit
      rw [Bool.and_eq_true, decide_eq_true_eq, decide_eq_true_eq]
      rw [decide_eq_true_eq] at hple
      exact ⟨div_nonneg hcumnn (le_of_lt hapos), hple⟩

/-- The cohort row of `rows0` for `(1, 2020)` after the `d` column:
cumulative total 50, `d = 1/2`. -/
def c0 : CumRow := ⟨⟨1, 2020, 50, some 100, some 3⟩, 50, .fin (1/2)⟩

/-- Witness for the amended C2 at a concrete input. -/
theorem c2_witness : dInUnit c0.d = true := by
  apply c2_amended rows0 (by with_unfolding_all decide) ?_ c0
    (by with_unfolding_all decide)
  intro r hr a hra
  simp only [rows0, List.mem_cons, List.not_mem_nil, or_false] at hr
  rcases hr with rfl | rfl <;>
    (injection hra with h; rw [← h]; norm_num)

/-- A single row with approval amount 0 and a negative disbursed
amount: `d` is `-inf`, which passes the `d ≤ 1` filter. -/
def rZero : Row := ⟨3, 2020, -50, some 0, some 2, "s", "t", "p"⟩

/-- **C6 fails as stated**: on the input `[rZero]` a cohort row with
zero `approval_amount` survives the filter, because division by zero
with a negative cumulative total gives `d = -inf ≤ 1`. -/
theorem c6_counterexample :
    ¬ (∀ c ∈ general_summary_filtered [rZero],
        c.base.approval_amount ≠ some 0) := by
  with_unfolding_all decide

/-- **C6 (amended).**  A cohort row with missing (all-null)
`approval_amount` is always dropped (`d = NaN` fails `d ≤ 1`); a row
with zero `approval_amount` is dropped whenever its cumulative total
is nonnegative — in particular always, when disbursed amounts are
nonnegative — but survives with `d = -inf` when the cumulative total
is negative.  No case raises an error. -/
theorem c6_amended (rows : List Row) :
    ∀ c ∈ general_summary_filtered rows,
      c.base.approval_amount ≠ none ∧
      (c.base.approval_amount = some 0 →
        c.cumulative_disbursement_total < 0) := by
  intro c hc
  obtain ⟨⟨p, hp, hcp⟩, hple, _⟩ := mem_filtered rows c hc
  subst hcp
  dsimp only at hple ⊢
  constructor
  · intro hnone
    rw [hnone] at hple
    simp [pdiv, pleOne] at hple
  · intro hzero
    rw [hzero] at hple
    unfold pdiv at hple
    dsimp only at hple
    rw [if_pos rfl] at hple
    split_ifs at hple with h1 h2
    · simp [pleOne] at hple
    · exact h2
    · simp [pleOne] at hple

/-- Witness for the amended C6 at a concrete input. -/
theorem c6_witness :
    c0.base.approval_amount ≠ none ∧
    (c0.base.approval_amount = some 0 →
      c0.cumulative_disbursement_total < 0) :=
  c6_amended rows0 c0 (by with_unfolding_all decide)

/-- Operation 4 disburses 50 in 2020 and then a correction of -10 in
2021, so its cumulative total drops from 50 to 40. -/
def r8a : Row := ⟨4, 2020, 50, some 100, some 1, "s", "t", "p"⟩

/-- Second row of the C8 counterexample input. -/
def r8b : Row := ⟨4, 2021, -10, some 100, some 13, "s", "t", "p"⟩

/-- **C8 fails as stated**: with a negative disbursed amount the
cumulative total decreases from 50 (2020) to 40 (2021) for operation
4. -/
theorem c8_counterexample :
    ¬ (∀ p ∈ withCum [r8a, r8b], ∀ q ∈ withCum [r8a, r8b],
        p.1.opid = q.1.opid → p.1.year ≤ q.1.year → p.2 ≤ q.2) := by
  with_unfolding_all decide

/-- **C8 (amended).**  When all disbursed amounts are nonnegative,
`cumulative_disbursement_total` is non-decreasing in `year` within
each operation (for any two cohort rows of the same operation). -/
theorem c8_amended (rows : List Row)
    (hm : ∀ r ∈ rows, 0 ≤ r.monto_desembolsado) :
    ∀ p ∈ withCum rows, ∀ q ∈ withCum rows,
      p.1.opid = q.1.opid → p.1.year ≤ q.1.year → p.2 ≤ q.2 := by
  intro p hp q hq hop hyear
  obtain ⟨_, _, _, hpc⟩ := withCum_fields rows p hp
  obtain ⟨_, _, _, hqc⟩ := withCum_fields rows q hq
  rw [hpc, hqc, hop]
  exact cumSpec_mono rows q.1.opid p.1.year q.1.year hyear hm

/-- The cohort row of `rows0` for `(1, 2020)`: cumulative total 50. -/
def p1 : SummaryRow × ℚ := (⟨1, 2020, 50, some 100, some 3⟩, 50)

/-- Witness for the amended C8 at a concrete input: the 2020
cumulative total 50 is at most the 2021 cumulative total 80. -/
theorem c8_witness : p1.2 ≤ p0.2 :=
  c8_amended rows0 (by with_unfolding_all decide) p1
    (by with_unfolding_all decide) p0 (by with_unfolding_all decide)
    rfl (by decide)

/-- **C9.**  The duplicated per-category aggregation pipeline
(`datamodelo_sumary` and its cumulative, `d` and filter steps)
computes exactly the same cohort table as the general pipeline on any
row subset: the two code branches are equivalent. -/
theorem c9_pipeline_equiv :
    ∀ rows : List Row,
      datamodelo_filtered rows = general_summary_filtered rows :=
  fun _ => rfl

/-- Equality of `Except` results is decidable. -/
def exceptEqDec {ε α : Type} [DecidableEq ε] [DecidableEq α] :
    DecidableEq (Except ε α)
  | .ok a, .ok b =>
    if h : a = b then isTrue (by rw [h])
    else isFalse (by intro hc; injection hc; contradiction)
  | .ok _, .error _ => isFalse (fun hc => Except.noConfusion hc)
  | .error _, .ok _ => isFalse (fun hc => Except.noConfusion hc)
  | .error e, .error f =>
    if h : e = f then isTrue (by rw [h])
    else isFalse (by intro hc; injection hc; contradiction)

instance {ε α : Type} [DecidableEq ε] [DecidableEq α] :
    DecidableEq (Except ε α) := exceptEqDec

/-- A fit oracle that always succeeds, returning the initial guess
`[2.0, 0.1, 1.5]`. -/
def env0 : FitEnv := ⟨fun _ _ => .ok (2, 1/10, 3/2), fun _ _ => 0⟩

/-- A fit oracle that never converges. -/
def envFail : FitEnv := ⟨fun _ _ => .error (), fun _ _ => 0⟩

/-- A fit oracle that fails exactly on three-point inputs. -/
def envSel : FitEnv :=
  ⟨fun ks _ => if ks.length = 3 then .error () else .ok (2, 1/10, 3/2),
   fun _ _ => 0⟩

/-- A raw record whose disbursement date is unparseable (`NaT`). -/
def rawBad : RawRecord :=
  ⟨9, none, some ⟨2020, 500⟩, 50, some 100, "s", "t", "p"⟩

/-- **C4 (code bug).**  A record with an unparseable disbursement
date does *not* lead to a null-year record excluded later: the
`astype(int)` on the year column fails on `NaN`, so the whole load
fails. -/
theorem c4_unparseable_date_fails_load :
    load_data [rawBad] = .error .yearCastNaN := by
  with_unfolding_all rfl

/-- A raw record whose cohort point has `d = 1.5` and so is removed
by the validity filter, leaving the cohort table empty. -/
def raw7 : RawRecord :=
  ⟨5, some ⟨2020, 100⟩, some ⟨2020, 10⟩, 150, some 100, "s", "t", "p"⟩

/-- **C7 (code bug).**  With an empty post-filter cohort table the
script does not surface a warning: `general_summary_sorted` is never
assigned, and the final general `add_trace` dereferences it, raising
`NameError`. -/
theorem c7_empty_cohort_raises :
    script env0 [raw7] Category.general = .error .nameErrorGeneralSorted := by
  with_unfolding_all rfl

/-- Four one-record operations, three in country "a" and one in
country "b"; every cohort point is valid. -/
def rawG : List RawRecord :=
  [⟨10, some ⟨2020, 40⟩, some ⟨2020, 10⟩, 50, some 100, "s", "t", "a"⟩,
   ⟨11, some ⟨2020, 70⟩, some ⟨2020, 10⟩, 60, some 100, "s", "t", "a"⟩,
   ⟨12, some ⟨2020, 100⟩, some ⟨2020, 10⟩, 70, some 100, "s", "t", "a"⟩,
   ⟨13, some ⟨2020, 130⟩, some ⟨2020, 10⟩, 80, some 100, "s", "t", "b"⟩]

/-- **C3 fails as stated**: with a fit oracle that fails on the
three-point country "a" partition (but succeeds on the four-point
general fit), the whole run aborts with the propagated fit failure —
the group is not skipped and no figure is produced. -/
theorem c3_counterexample :
    script envSel rawG Category.paises = .error .groupFit := by
  with_unfolding_all rfl

/-- **C3 (amended).**  A per-group fit failure is not caught at the
fitter boundary: on any partition with at least 3 valid points whose
fit fails, the group loop returns the error, which the driver
propagates, aborting the run. -/
theorem c3_amended (env : FitEnv) (col : GroupCol) (data : List Row)
    (v : String)
    (h3 : 3 ≤ (datamodelo_filtered (partitionRows data col v)).length)
    (hfit : env.fit
      ((datamodelo_filtered (partitionRows data col v)).map fun c => c.base.k)
      ((datamodelo_filtered (partitionRows data col v)).map fun c => c.d) =
        .error ()) :
    processGroup env col data v = .error .groupFit := by
  unfold processGroup
  rw [if_pos h3, hfit]

/-- Three one-record operations, all in country "a". -/
def data3 : List Row :=
  [⟨10, 2020, 50, some 100, some 1, "s", "t", "a"⟩,
   ⟨11, 2020, 60, some 100, some 2, "s", "t", "a"⟩,
   ⟨12, 2020, 70, some 100, some 3, "s", "t", "a"⟩]

/-- Witness for the amended C3 at a concrete input. -/
theorem c3_witness :
    processGroup envFail GroupCol.pais data3 "a" = .error .groupFit :=
  c3_amended envFail .pais data3 "a" (by with_unfolding_all decide) rfl

/-- **C5.**  A partition with fewer than 3 valid cohort points (in
particular exactly 2) contributes no trace and is not an error; a
partition with 3 or more valid points whose fit succeeds contributes
exactly one trace, named after the partition value. -/
theorem c5_skip_rule (env : FitEnv) (col : GroupCol) (data : List Row)
    (v : String) :
    ((datamodelo_filtered (partitionRows data col v)).length < 3 →
      processGroup env col data v = .ok []) ∧
    (3 ≤ (datamodelo_filtered (partitionRows data col v)).length →
      ∀ params,
        env.fit
          ((datamodelo_filtered (partitionRows data col v)).map
            fun c => c.base.k)
          ((datamodelo_filtered (partitionRows data col v)).map
            fun c => c.d) = .ok params →
        ∃ series, processGroup env col data v =
          .ok [⟨(groupDisplayName col v).toLower, series⟩]) := by
  constructor
  · intro hlt
    unfold processGroup
    rw [if_neg (by omega)]
  · intro h3 params hfit
    refine ⟨(sortByK (hdRows env params
      (datamodelo_filtered (partitionRows data col v)))).map
        fun p => (p.1.base.k, p.2), ?_⟩
    unfold processGroup
    rw [if_pos h3, hfit]

/-- The first two rows of `data3`: a two-point partition. -/
def data2 : List Row :=
  [⟨10, 2020, 50, some 100, some 1, "s", "t", "a"⟩,
   ⟨11, 2020, 60, some 100, some 2, "s", "t", "a"⟩]

/-- Witness for C5 at concrete inputs: the two-point partition yields
no trace, the three-point partition yields exactly one. -/
theorem c5_witness :
    processGroup env0 GroupCol.pais data2 "a" = .ok [] ∧
    ∃ series, processGroup env0 GroupCol.pais data3 "a" =
      .ok [⟨(groupDisplayName GroupCol.pais "a").toLower, series⟩] :=
  ⟨(c5_skip_rule env0 .pais data2 "a").1 (by with_unfolding_all decide),
   (c5_skip_rule env0 .pais data3 "a").2 (by with_unfolding_all decide)
     (2, 1/10, 3/2) rfl⟩

/-- **C10.**  The general curve (cohort points, fitted parameters and
sorted series) in the produced figure does not depend on the selected
category: any two runs on the same data and fit oracle that both
produce a figure have identical general components. -/
theorem c10_general_independent (env : FitEnv) (raw : List RawRecord)
    (c₁ c₂ : Category) (f₁ f₂ : Figure)
    (h₁ : script env raw c₁ = .ok f₁)
    (h₂ : script env raw c₂ = .ok f₂) :
    f₁.general = f₂.general := by
  unfold script at h₁ h₂
  cases hld : load_data raw with
  | error e =>
    rw [hld] at h₁
    dsimp only at h₁
    exact absurd h₁ (by simp)
  | ok data =>
    rw [hld] at h₁ h₂
    dsimp only at h₁ h₂
    cases hg : runGeneral env data with
    | error e =>
      rw [hg] at h₁
      dsimp only at h₁
      exact absurd h₁ (by simp)
    | ok gOpt =>
      rw [hg] at h₁ h₂
      dsimp only at h₁ h₂
      cases gOpt with
      | none =>
        cases ht1 : (match group_column c₁ with
          | none => Except.ok []
          | some col => processGroups env col data (groupValues col data)) with
        | error e =>
          rw [ht1] at h₁
          dsimp only at h₁
          exact absurd h₁ (by simp)
        | ok tr1 =>
          rw [ht1] at h₁
          dsimp only at h₁
          exact absurd h₁ (by simp)
      | some g =>
        cases ht1 : (match group_column c₁ with
          | none => Except.ok []
          | some col => processGroups env col data (groupValues col data)) with
        | error e =>
          rw [ht1] at h₁
          dsimp only at h₁
          exact absurd h₁ (by simp)
        | ok tr1 =>
          cases ht2 : (match group_column c₂ with
            | none => Except.ok []
            | some col => processGroups env col data (groupValues col data)) with
          | error e =>
            rw [ht2] at h₂
            dsimp only at h₂
            exact absurd h₂ (by simp)
          | ok tr2 =>
            rw [ht1] at h₁
            rw [ht2] at h₂
            dsimp only at h₁ h₂
            simp only [Except.ok.injEq] at h₁ h₂
            rw [← h₁, ← h₂]

/-- The general component of a script result, when the run produced a
figure. -/
def generalOf : Except Err Figure → Option GeneralOut
  | .ok f => some f.general
  | .error _ => none

/-- Witness for C10 at a concrete input: a run with no grouping and a
run grouped by country produce figures with the same general
component. -/
theorem c10_witness :
    generalOf (script env0 rawG Category.general) =
      generalOf (script env0 rawG Category.paises) := by
  have hok1 : (script env0 rawG Category.general).isOk = true := by
    with_unfolding_all rfl
  have hok2 : (script env0 rawG Category.paises).isOk = true := by
    with_unfolding_all rfl
  cases hs1 : script env0 rawG Category.general with
  | error e => rw [hs1] at hok1; exact absurd hok1 (by simp [Except.isOk, Except.toBool])
  | ok f₁ =>
    cases hs2 : script env0 rawG Category.paises with
    | error e => rw [hs2] at hok2; exact absurd hok2 (by simp [Except.isOk, Except.toBool])
    | ok f₂ =>
      have hg := c10_general_independent env0 rawG Category.general
        Category.paises f₁ f₂ hs1 hs2
      simp [generalOf, hg]

end Curvas
